import Mathlib

/-!
Verification of the surf browsing-session library (Go) against its
natural-language specification.  The Go sources are shallowly embedded:
pure fragments become Lean functions, the stateful request pipeline becomes
explicit state passing over a `BrowserSt` record, Go byte slices and strings
become Lean `String`s, Go `int` becomes `Int`, and Go maps become either
association lists or update functions, matching the operations the source
performs on them.  External collaborators (the goquery HTML parser, the otto
script evaluator, compression codecs, the charset transcoder) are taken as
abstract function parameters, since their code lives outside this repository.
-/

set_option autoImplicit false

namespace Surf

/-- A parsed document, as produced by `goquery.NewDocumentFromReader`.
Reading from an in-memory buffer never fails and the HTML5 parser is
error-tolerant, so parsing is modelled as total; the document remembers the
bytes it was parsed from. -/
structure Doc where
  bytes : String
  deriving Repr, DecidableEq

/-- `goquery.NewDocumentFromReader` over a `bytes.Buffer` (browser.go line
1875): total, keeps the input bytes. -/
def parseDoc (b : String) : Doc := ⟨b⟩

/-- An outgoing HTTP request, reduced to the fields the embedded code
inspects. -/
structure Req where
  url : String
  deriving Repr, DecidableEq

/-- An incoming HTTP response, reduced to the fields the embedded code
inspects.  `headers` is an association list standing for the Go
`http.Header` map. -/
structure HResp where
  statusCode : Int
  headers : List (String × String)
  deriving Repr, DecidableEq

/-- `http.Header.Get`: first value for the key, empty string when absent
(a `nil` Go map also yields the empty string). -/
def headerGet (hs : List (String × String)) (k : String) : String :=
  match hs.lookup k with
  | some v => v
  | none => ""

/-- `jar.State` (asynccall.go lines 74-78): one resolved navigation.
`request`/`response` are nilable pointers in Go, hence `Option`. -/
structure GoSt where
  request : Option Req
  response : Option HResp
  dom : Doc
  deriving Repr, DecidableEq

namespace MemoryHistory

/-- `MemoryHistory.Len` (asynccall.go lines 117-121). -/
def Len (states : List GoSt) : Nat := states.length

/-- `MemoryHistory.Push` (asynccall.go lines 131-141): when the capacity is
positive, append the state and, if the length now exceeds the capacity, drop
the oldest entry (`states[1:]`); when the capacity is zero (or negative) the
push is a no-op.  The capacity is a Go `int`, modelled as `Int`. -/
def Push (cap : Int) (states : List GoSt) (p : GoSt) : List GoSt :=
  if 0 < cap then
    let s' := states ++ [p]
    if cap < (s'.length : Int) then s'.tail else s'
  else states

/-- Folding `Push` over a chronological list of pushed states. -/
def pushAll (cap : Int) (states : List GoSt) (ps : List GoSt) : List GoSt :=
  ps.foldl (Push cap) states

/-- `MemoryHistory.Pop` (asynccall.go lines 144-157): returns the newest
entry (`states[len-1]`), removing it (`states[0 : len-1]`) only when more
than one entry is present; returns `nil` on an empty history. -/
def Pop (states : List GoSt) : List GoSt × Option GoSt :=
  if 0 < states.length then
    let value := states[states.length - 1]?
    if 1 < states.length then (states.take (states.length - 1), value) else (states, value)
  else (states, none)

/-- `MemoryHistory.Top` (asynccall.go lines 160-167). -/
def Top (states : List GoSt) : Option GoSt :=
  if states.length = 0 then none else states[states.length - 1]?

end MemoryHistory

/-- `jar.AsyncDom` (asynccall.go lines 10-13): a fetched document stamped
with `time.Now()`.  The zero value `&AsyncDom` has a zero time and a nil
document pointer, hence `D : Option Doc` with default `none`. -/
structure AsyncDom where
  T : Nat
  D : Option Doc
  deriving Repr, DecidableEq

namespace AsyncStore

/-- The `doms` map of `jar.AsyncStore`, modelled as a lookup function
(Go map semantics: point update, lookup). -/
abbrev Doms := String → Option AsyncDom

/-- `jar.NewAsyncStore` (asynccall.go lines 19-21): an empty map. -/
def New : Doms := fun _ => none

/-- `AsyncStore.Set` (asynccall.go lines 22-26): unconditional overwrite
with a fresh `AsyncDom` stamped `time.Now()` (passed in as `now`). -/
def Set (doms : Doms) (name : String) (now : Nat) (val : Doc) : Doms :=
  fun k => if k = name then some ⟨now, some val⟩ else doms k

/-- `AsyncStore.Get` (asynccall.go lines 27-34): the stored entry, or the
zero-value sentinel `&AsyncDom` for an unknown name. -/
def Get (doms : Doms) (name : String) : AsyncDom :=
  match doms name with
  | some v => v
  | none => ⟨0, none⟩

end AsyncStore

/-! ## Browser state and simple accessors (browser.go) -/

/-- The mutable fields of `browser.Browser` (browser.go lines 1192-1234)
that the verified claims touch.  The history jar is the in-memory
implementation, carried as its state list plus its capacity. -/
structure BrowserSt where
  history : List GoSt
  histCap : Int
  current : GoSt
  body : String
  reloadCounter : Int
  maxReloads : Int
  metaRefreshHandling : Bool
  deriving Repr, DecidableEq

namespace Browser

/-- `Browser.StatusCode` (browser.go lines 1642-1650): 503 when the current
state has no response. -/
def StatusCode (b : BrowserSt) : Int :=
  match b.current.response with
  | none => 503
  | some r => r.statusCode

/-- `Browser.Back` (browser.go lines 1351-1357): when more than one history
entry exists, pop and install the popped state as current. When the length is
greater than 1 the pop always yields an entry, so the `none` branch below is
unreachable. -/
def Back (b : BrowserSt) : BrowserSt × Bool :=
  if 1 < b.history.length then
    match MemoryHistory.Pop b.history with
    | (h', some s) => ({ b with history := h', current := s }, true)
    | (_, none) => (b, false)
  else (b, false)

end Browser

/-! ## Redirect policy (browser.go `shouldRedirect`, lines 2196-2213) -/

/-- Go `http.Header` for redirect handling: an association list from header
name to value list, mirroring the map the code iterates and indexes. -/
abbrev Headers := List (String × List String)

/-- Map lookup `req.Header[attr]` (first binding wins, as in a Go map whose
keys are unique). -/
def hget (h : Headers) (k : String) : Option (List String) :=
  match h with
  | [] => none
  | (a, v) :: t => if a = k then some v else hget t k

/-- One iteration of the inheritance loop: `req.Header[attr] = val` only when
the key is absent (`if _, ok := req.Header[attr]; !ok`). -/
def hinsertIfAbsent (h : Headers) (k : String) (v : List String) : Headers :=
  match hget h k with
  | some _ => h
  | none => (k, v) :: h

/-- The loop `for attr, val := range via[0].Header` copying absent headers
onto the new hop's request. -/
def inheritHeaders (reqH via0 : Headers) : Headers :=
  via0.foldl (fun acc p => hinsertIfAbsent acc p.1 p.2) reqH

/-- Result of the `CheckRedirect` callback. -/
inductive RedirectOutcome where
  | tooManyRedirects
  | redirectsDisabled
  | proceed (newReqHeaders : Headers)
  deriving DecidableEq

/-- `Browser.shouldRedirect` (browser.go lines 2196-2213).  `via` is the list
of requests already made, oldest first; only the headers matter here. -/
def shouldRedirect (followRedirects : Bool) (reqH : Headers) (via : List Headers) :
    RedirectOutcome :=
  if followRedirects then
    if 10 ≤ via.length then .tooManyRedirects
    else
      match via with
      | [] => .proceed reqH
      | v0 :: _ => .proceed (inheritHeaders reqH v0)
  else .redirectsDisabled

/-! ## Decoder pipeline: body selection in `httpRequest`
(browser.go lines 1811-1868) -/

/-- The external decoding collaborators: compression codecs
(`compress/gzip`, `compress/flate`, `brotli`), the mahonia GBK decoder and
`charset.NewReader`.  `gunzip` returns `none` when `gzip.NewReader` rejects
the stream header; `charsetReader` returns `none` when `charset.NewReader`
fails to initialise for the declared content type. -/
structure Codecs where
  gunzip : String → Option String
  inflate : String → String
  unbrotli : String → String
  gbkDecode : String → String
  charsetReader : String → String → Option String

/-- Character class of the Go regexp `^([A-z\/\.\+\-]+)` used by
`contentFix`/`contentConversion`: ASCII `A`..`z` plus `/`, `.`, `+`, `-`. -/
def mimeClassChar (ch : Char) : Bool :=
  ('A' ≤ ch && ch ≤ 'z') || ch = '/' || ch = '.' || ch = '+' || ch = '-'

/-- Longest prefix matched by the anchored greedy regexp above. -/
def mimeMatchChars : List Char → List Char
  | [] => []
  | c :: t => if mimeClassChar c then c :: mimeMatchChars t else []

/-- The `match` captured from the Content-Type header (empty when the regexp
does not match, i.e. the first character is outside the class). -/
def mimeMatch (ct : String) : String := String.mk (mimeMatchChars ct.data)

/-- `Browser.contentFix` (browser.go lines 2274-2286): true when the
captured MIME `type/subtype` is registered in the charset-exempt checker
list. -/
def contentFix (checker : List String) (ct : String) : Bool :=
  if mimeMatch ct ≠ "" then checker.contains (mimeMatch ct) else false

/-- Body selection of `httpRequest` (browser.go lines 1811-1868), from the
point where the response is present and not a challenge.  Returns `none`
when `gzip.NewReader` fails (the function returns that error with no state
change); otherwise the bytes stored into `bow.body`.

Faithful to the source: the `reader` built by the Content-Encoding switch is
consumed only in the GBK branch, the successful `charset.NewReader` branch
and the 403 branch; the charset-exempt branch (line 1853) and the
charset-initialisation-failure branch (line 1846) read `resp.Body` — the raw,
still-compressed stream — instead. -/
def httpRequestBody (c : Codecs) (checker : List String) (statusCode : Int)
    (contentEncoding contentType : String) (respBody : String) (hasBody : Bool) :
    Option String :=
  let readerOpt : Option String :=
    if contentEncoding = "gzip" then c.gunzip respBody
    else if contentEncoding = "deflate" then some (c.inflate respBody)
    else if contentEncoding = "br" then some (c.unbrotli respBody)
    else some respBody
  match readerOpt with
  | none => none
  | some reader =>
    if statusCode ≠ 403 then
      if contentType = "text/html; charset=GBK" then some (c.gbkDecode reader)
      else if contentFix checker contentType = false then
        match c.charsetReader contentType reader with
        | some fixed => some fixed
        | none => some respBody
      else some respBody
    else
      if hasBody then some reader else some "<html></html>"

/-! ## Request completion and the transport-error paths
(browser.go `httpRequest` lines 1774-1788 and `httpRequestComplete`
lines 1873-1884) -/

/-- `strings.Contains`. -/
def goContains (s sub : String) : Bool := decide (sub.data <:+: s.data)

/-- `strings.HasSuffix`. -/
def goHasSuffix (s suffix : String) : Bool := decide (suffix.data <:+ s.data)

/-- `isContentTypeHtml` (browser.go lines 2240-2246): false for a nil
response; otherwise the Content-Type is empty or contains "text/html". -/
def isContentTypeHtml (r : Option HResp) : Bool :=
  match r with
  | some resp =>
    let ct := headerGet resp.headers "Content-Type"
    ct = "" || goContains ct "text/html"
  | none => false

/-- The meta-refresh trigger test of `postSend` (browser.go lines
2176-2193): the goquery lookup of `meta[http-equiv=refresh]` and
`time.ParseDuration` are external collaborators, passed as `metaOf` and
`parseDur`.  Returns the refresh duration exactly when the code would sleep,
increment the counter and recursively `Reload`. -/
def postSendCheck (metaOf : Doc → Option String) (parseDur : String → Option Int)
    (b : BrowserSt) : Option Int :=
  if isContentTypeHtml b.current.response && b.metaRefreshHandling then
    match metaOf b.current.dom with
    | some attr =>
      match parseDur attr with
      | some dur => if b.reloadCounter < b.maxReloads then some dur else none
      | none => none
    | none => none
  else none

/-- Result of `httpRequestComplete`: either the navigation settles with a
final browser state and returned error, or the meta-refresh post-processing
would block and recursively reload (a recursion this embedding does not
follow further). -/
inductive CompleteResult where
  | done (b : BrowserSt) (err : Option String)
  | reloadTriggered (b : BrowserSt) (dur : Int)
  deriving DecidableEq

/-- `Browser.httpRequestComplete` (browser.go lines 1873-1884): parse
`bow.body` (total over an in-memory buffer, so the parse error stays as
passed in), push the previous current state, install the new state, run
`postSend`, reset the reload counter to 0, and return the error. -/
def httpRequestComplete (metaOf : Doc → Option String) (parseDur : String → Option Int)
    (b : BrowserSt) (req : Req) (resp : Option HResp) (err : Option String) :
    CompleteResult :=
  let dom := parseDoc b.body
  let b1 : BrowserSt :=
    { b with
      history := MemoryHistory.Push b.histCap b.history b.current
      current := ⟨some req, resp, dom⟩ }
  match postSendCheck metaOf parseDur b1 with
  | some dur => .reloadTriggered b1 dur
  | none => .done { b1 with reloadCounter := 0 } err

/-- The synthetic response built for errors whose text ends in
"Service Unavailable" (browser.go line 1784): status 503, no headers. -/
def synthetic503 : HResp := ⟨503, []⟩

/-- Outcome of `bow.client.Do(req)` as the error-handling prologue of
`httpRequest` distinguishes it (browser.go lines 1779-1788). -/
inductive TransportOutcome where
  | success (resp : HResp)
  | timeoutErr (e : String)
  | otherErr (e : String)

/-- The transport-failure paths of `Browser.httpRequest` (browser.go lines
1774-1788 and the fall-through to line 1870).  A non-timeout error sets the
placeholder body and completes immediately with the original error (with a
synthetic 503 response when the error text ends in "Service Unavailable").
A timeout sets the placeholder body and falls through: `resp` is nil, so the
whole decode block is skipped and line 1870 completes with error `nil`.
`none` means the outcome is a successful round trip, handled elsewhere. -/
def httpRequestOnError (metaOf : Doc → Option String) (parseDur : String → Option Int)
    (b : BrowserSt) (req : Req) (t : TransportOutcome) : Option CompleteResult :=
  match t with
  | .otherErr e =>
    let resp : Option HResp :=
      if goHasSuffix e "Service Unavailable" then some synthetic503 else none
    some (httpRequestComplete metaOf parseDur { b with body := "<html></html>" } req resp (some e))
  | .timeoutErr _ =>
    some (httpRequestComplete metaOf parseDur { b with body := "<html></html>" } req none none)
  | .success _ => none

/-- The error component of a settled completion (`none` when the navigation
recursed into a meta-refresh reload). -/
def completeErr : CompleteResult → Option (Option String)
  | .done _ err => some err
  | .reloadTriggered _ _ => none

/-- The response stored in the new current state of a settled completion. -/
def completeResp : CompleteResult → Option (Option HResp)
  | .done b _ => some b.current.response
  | .reloadTriggered _ _ => none

/-- `completeErr` lifted over the optional result of `httpRequestOnError`. -/
def completeErrOf : Option CompleteResult → Option (Option String)
  | some r => completeErr r
  | none => none

/-- `completeResp` lifted over the optional result of `httpRequestOnError`. -/
def completeRespOf : Option CompleteResult → Option (Option HResp)
  | some r => completeResp r
  | none => none

/-! ## Challenge solving: retry budget and counter dynamics
(browser.go lines 1798-1808, 1873-1884, 1887-1894) -/

/-- The retry-budget gate of `httpRequest` (browser.go line 1799):
`reloadCounter >= maxReloads && maxReloads > 0 ||
 maxReloads == 0 && reloadCounter >= 3`. -/
def cfRetryGate (maxReloads reloadCounter : Int) : Bool :=
  (decide (maxReloads ≤ reloadCounter) && decide (0 < maxReloads)) ||
    (decide (maxReloads = 0) && decide (3 ≤ reloadCounter))

/-- Challenge detection (browser.go line 1798): a 503 whose Server header is
one of the two known proxy signatures. -/
def isCFChallenge (statusCode : Int) (serverHeader : String) : Bool :=
  decide (statusCode = 503) &&
    (serverHeader = "cloudflare-nginx" || serverHeader = "cloudflare")

/-- How a `solveCF` call plays out, abstracting the page parsing, script
evaluation and the follow-up navigation it performs:
* `deadloopGuard` — the URL already contains "chk_jschl"; `solveCF` returns
  false before touching the counter (browser.go lines 1888-1891);
* `extractionFailed` — the counter was incremented at entry (line 1892) but
  extraction/evaluation failed and `solveCF` returned false;
* `postSolve403` — the POST variant submitted its answer, the follow-up
  navigation answered 403, `solveCF` returned false (line 2082-2089);
* `navigated c` — the answer was submitted and `solveCF` returned true; the
  inner navigation left the reload counter at `c`. -/
inductive SolveCFResult where
  | deadloopGuard
  | extractionFailed
  | postSolve403
  | navigated (counterAfterNav : Int)
  deriving Repr, DecidableEq

/-- What the challenge branch reports to the caller. -/
inductive ChallengeOutcome where
  | maxRetriesError
  | unsolvedError
  | solvedNil
  deriving Repr, DecidableEq

/-- The counter effect of `solveCF` itself (browser.go lines 1887-1892):
`none` when the dead-loop guard fires (counter untouched, returns false);
otherwise the counter is incremented at entry. -/
def solveCFEntry (counter : Int) (urlContainsChkJschl : Bool) : Option Int :=
  if urlContainsChkJschl then none else some (counter + 1)

/-- Counter dynamics of the challenge branch of `httpRequest` (browser.go
lines 1798-1808) composed with `httpRequestComplete`'s reset (line 1882):
when the budget gate fires, `httpRequestComplete` runs with the
"maximum retries" error and resets the counter to 0; when `solveCF` returns
false (dead-loop guard, extraction failure, or 403 after the POST solve),
`httpRequestComplete` runs with the "unknown algorythm" error and resets the
counter to 0; when `solveCF` returns true, `httpRequest` returns nil without
completing, leaving the counter wherever the inner navigation put it. -/
def challengeCounterStep (maxReloads counter : Int) (s : SolveCFResult) :
    Int × ChallengeOutcome :=
  if cfRetryGate maxReloads counter then (0, .maxRetriesError)
  else
    match s with
    | .deadloopGuard => (0, .unsolvedError)
    | .extractionFailed => (0, .unsolvedError)
    | .postSolve403 => (0, .unsolvedError)
    | .navigated cAfter => (cAfter, .solvedNil)

/-- Outcomes of `n` consecutive 503-challenge responses inside one
navigation, starting from reload counter `c`: each response either trips the
budget gate (entry `true`, recursion stops with the "maximum retries" error)
or enters `solveCF`, incrementing the counter before the next follow-up
round trip. -/
def consecutiveChallengeOutcomes (m : Int) : Nat → Int → List Bool
  | 0, _ => []
  | n + 1, c =>
    if cfRetryGate m c then [true]
    else false :: consecutiveChallengeOutcomes m n (c + 1)

/-! ## Legacy (GET-style) challenge submission
(browser.go `solveCF`, lines 2102-2164) -/

/-- The value produced by the otto evaluator for the rewritten challenge
expression: `str` is `data.String()` and `toInt` is `data.ToInteger()`
(assumed convertible; a conversion error makes `solveCF` return false before
any submission). -/
structure OttoValue where
  str : String
  toInt : Int
  deriving Repr, DecidableEq

/-- The follow-up request the solver issues, as structured data: method,
scheme, host, path and the query/form parameters in the order the code adds
them. -/
structure CFSubmission where
  method : String
  scheme : String
  host : String
  path : String
  params : List (String × String)
  deriving Repr, DecidableEq

/-- The legacy (old GET method) submission tail of `solveCF` (browser.go
lines 2122-2159): `checksum := data.ToInteger() + int64(len(host))` is
computed (lines 2128-2133) but never used; the query appends
`jschl_vc`, `pass` and then `"&jschl_answer=" + data.String()` (line 2147)
onto the well-known path, sent via GET (`bow.Open`, line 2159). -/
def solveCFLegacySubmit (scheme rhost host : String) (dataV : OttoValue)
    (jschlVc pass : String) : CFSubmission :=
  let _checksum : Int := dataV.toInt + (host.length : Int)
  { method := "GET"
    scheme := scheme
    host := rhost
    path := "/cdn-cgi/l/chk_jschl"
    params := [("jschl_vc", jschlVc), ("pass", pass), ("jschl_answer", dataV.str)] }

/-! ## Concrete sample values used by witnesses and counterexamples -/

/-- A sample navigation state. -/
def stA : GoSt := ⟨none, none, ⟨"page A"⟩⟩

/-- A second sample navigation state. -/
def stB : GoSt := ⟨none, none, ⟨"page B"⟩⟩

/-- A third sample navigation state. -/
def stC : GoSt := ⟨none, none, ⟨"page C"⟩⟩

/-- A sample request. -/
def reqDemo : Req := ⟨"https://example.org/feed"⟩

/-- A sample browser state: fresh session after `NewBrowser` (empty history
with the zero capacity of `NewMemoryHistory`, zero counters, meta-refresh
handling enabled), current state `stA`. -/
def bDemo : BrowserSt :=
  { history := []
    histCap := 0
    current := stA
    body := ""
    reloadCounter := 0
    maxReloads := 0
    metaRefreshHandling := true }

/-- A browser state whose history holds two entries. -/
def bDemo2 : BrowserSt := { bDemo with history := [stA, stB], current := stC }

/-- A browser state whose current state has a request but no response, as
left behind by a failed transport round trip. -/
def bDemoNoResp : BrowserSt := { bDemo with current := ⟨some reqDemo, none, ⟨"<html></html>"⟩⟩ }

/-- A goquery meta-refresh lookup that finds nothing (the placeholder
document has no meta tag). -/
def metaOfNone : Doc → Option String := fun _ => none

/-- A duration parser that always fails; never consulted in the verified
paths. -/
def parseDurNone : String → Option Int := fun _ => none

/-- Sample codecs: gzip decompression maps everything to a fixed distinct
string, the charset transcoder always fails to initialise. -/
def demoCodecs : Codecs :=
  { gunzip := fun _ => some "UNZIPPED BODY"
    inflate := id
    unbrotli := id
    gbkDecode := id
    charsetReader := fun _ _ => none }

/-! # Theorems -/

/-! ## Helper lemmas -/

/-- With capacity 0 a push is a no-op, so iterated pushes change nothing. -/
theorem pushAll_zero_cap (ps : List GoSt) :
    ∀ states, MemoryHistory.pushAll 0 states ps = states := by
  induction ps with
  | nil => intro states; rfl
  | cons p t ih =>
    intro states
    have hp : MemoryHistory.Push 0 states p = states := by
      simp [MemoryHistory.Push]
    calc MemoryHistory.pushAll 0 states (p :: t)
        = MemoryHistory.pushAll 0 (MemoryHistory.Push 0 states p) t := rfl
      _ = MemoryHistory.pushAll 0 states t := by rw [hp]
      _ = states := ih states

/-- Iterated pushes with positive capacity `c`, starting from a history not
longer than `c`, keep exactly the most recent `c` entries of the combined
chronological sequence. -/
theorem pushAll_eq_drop (c : Nat) (hc : 0 < c) (ps : List GoSt) :
    ∀ states : List GoSt, states.length ≤ c →
      MemoryHistory.pushAll (c : Int) states ps
        = (states ++ ps).drop (states.length + ps.length - c) := by
  induction ps with
  | nil =>
    intro states h
    simp [MemoryHistory.pushAll, Nat.sub_eq_zero_of_le h]
  | cons p t ih =>
    intro states h
    have h0 : (0 : Int) < (c : Int) := by exact_mod_cast hc
    have hstep : MemoryHistory.pushAll (c : Int) states (p :: t)
        = MemoryHistory.pushAll (c : Int) (MemoryHistory.Push (c : Int) states p) t := rfl
    rcases Nat.lt_or_ge states.length c with hlt | hge
    · have hcond : ¬ ((c : Int) < (((states ++ [p]).length : Nat) : Int)) := by
        rw [List.length_append]
        push_cast
        simp
        omega
      have hpush : MemoryHistory.Push (c : Int) states p = states ++ [p] := by
        simp only [MemoryHistory.Push, if_pos h0, if_neg hcond]
      have hlen : (states ++ [p]).length ≤ c := by
        rw [List.length_append]; simp; omega
      rw [hstep, hpush, ih _ hlen]
      have hidx : (states ++ [p]).length + t.length - c
          = states.length + (p :: t).length - c := by
        simp [List.length_append]
        omega
      rw [hidx, List.append_assoc]
      rfl
    · have heq : states.length = c := le_antisymm h hge
      cases states with
      | nil =>
        rw [← heq] at hc
        simp at hc
      | cons q qs =>
        have hlq : qs.length + 1 = c := by
          simpa using heq
        have hcond : (c : Int) < (((q :: (qs ++ [p])).length : Nat) : Int) := by
          have hn : c < (q :: (qs ++ [p])).length := by
            simp
            omega
          exact_mod_cast hn
        have hpush : MemoryHistory.Push (c : Int) (q :: qs) p = qs ++ [p] := by
          simp only [MemoryHistory.Push, if_pos h0, List.cons_append]
          rw [if_pos hcond, List.tail_cons]
        have hlen : (qs ++ [p]).length ≤ c := by
          simp
          omega
        rw [hstep, hpush, ih _ hlen]
        have hidx : (qs ++ [p]).length + t.length - c = t.length := by
          simp
          omega
        have hidx2 : (q :: qs).length + (p :: t).length - c = t.length + 1 := by
          simp
          omega
        rw [hidx, hidx2]
        simp [List.append_assoc]

/-- The `Pop` of the in-memory history returns the newest entry and shortens
the list only when more than one entry is present. -/
theorem Pop_eq (states : List GoSt) :
    MemoryHistory.Pop states
      = (if 1 < states.length then states.dropLast else states, states.getLast?) := by
  unfold MemoryHistory.Pop
  by_cases h0 : 0 < states.length
  · rw [if_pos h0]
    by_cases h1 : 1 < states.length
    · rw [if_pos h1, if_pos h1, ← List.dropLast_eq_take, List.getLast?_eq_getElem?]
    · rw [if_neg h1, if_neg h1, List.getLast?_eq_getElem?]
  · have : states = [] := by
      cases states with
      | nil => rfl
      | cons a t => simp at h0
    subst this
    simp

/-- Lookup after the redirect header-inheritance loop: a header already on
the new request keeps its value, an absent one takes the value from the
first request of the chain. -/
theorem hget_inherit (v0 : Headers) :
    ∀ (reqH : Headers) (k : String),
      hget (inheritHeaders reqH v0) k
        = if (hget reqH k).isSome then hget reqH k else hget v0 k := by
  induction v0 with
  | nil =>
    intro reqH k
    cases h : hget reqH k <;> simp [inheritHeaders, hget, h]
  | cons p t ih =>
    intro reqH k
    obtain ⟨a, v⟩ := p
    have hstep : inheritHeaders reqH ((a, v) :: t)
        = inheritHeaders (hinsertIfAbsent reqH a v) t := rfl
    rw [hstep, ih]
    by_cases hak : a = k
    · subst hak
      cases h1 : hget reqH a with
      | some w => simp [hinsertIfAbsent, h1, hget]
      | none => simp [hinsertIfAbsent, h1, hget]
    · cases h1 : hget reqH a with
      | some w => simp [hinsertIfAbsent, h1, hget, hak]
      | none => simp [hinsertIfAbsent, h1, hget, hak]

/-! ## C7: bounded history -/

/-- C7: starting from an empty history with fixed capacity C > 0, after N
pushes the history holds exactly the C most recently pushed states in
chronological order and `Len` equals `min N C`; with capacity 0 every push
is a no-op and `Len` stays 0. -/
theorem C7_bounded_history (C N : Nat) (ps : List GoSt) (hC : 0 < C)
    (hN : ps.length = N) :
    MemoryHistory.pushAll (C : Int) [] ps = ps.drop (N - C)
    ∧ MemoryHistory.Len (MemoryHistory.pushAll (C : Int) [] ps) = min N C
    ∧ (∀ qs : List GoSt, MemoryHistory.pushAll 0 [] qs = []
        ∧ MemoryHistory.Len (MemoryHistory.pushAll 0 [] qs) = 0) := by
  have h1 := pushAll_eq_drop C hC ps [] (by simp)
  simp only [List.nil_append, List.length_nil, Nat.zero_add] at h1
  refine ⟨by rw [h1, hN], ?_, ?_⟩
  · rw [MemoryHistory.Len, h1, List.length_drop, hN]
    omega
  · intro qs
    rw [pushAll_zero_cap]
    exact ⟨rfl, rfl⟩

/-- C7 witness: capacity 2, three pushes retain the two most recent states
and the length is min 3 2. -/
theorem C7_witness :
    MemoryHistory.pushAll ((2 : Nat) : Int) [] [stA, stB, stC] = [stB, stC]
    ∧ MemoryHistory.Len (MemoryHistory.pushAll ((2 : Nat) : Int) [] [stA, stB, stC])
        = min 3 2 := by
  have h := C7_bounded_history 2 3 [stA, stB, stC] (by decide) (by decide)
  exact ⟨by rw [h.1]; rfl, h.2.1⟩

/-! ## C8: Pop and Back -/

/-- C8: `Pop` returns the most recent entry, removing it only when more than
one entry remains (the sole remaining entry is returned without removal);
`Back` succeeds — installing the popped entry as the current state — exactly
when the history length exceeds 1 before the call, and otherwise returns
false leaving the browser unchanged. -/
theorem C8_pop_back (states : List GoSt) (b : BrowserSt) :
    MemoryHistory.Pop states
      = (if 1 < states.length then states.dropLast else states, states.getLast?)
    ∧ (1 < b.history.length →
        ∃ s, b.history.getLast? = some s
          ∧ Browser.Back b
            = ({ b with history := b.history.dropLast, current := s }, true))
    ∧ (¬ 1 < b.history.length → Browser.Back b = (b, false)) := by
  refine ⟨Pop_eq states, ?_, ?_⟩
  · intro h1
    have hne : b.history ≠ [] := by
      intro he
      rw [he] at h1
      simp at h1
    obtain ⟨s, hs⟩ := Option.isSome_iff_exists.mp (List.getLast?_isSome.mpr hne)
    refine ⟨s, hs, ?_⟩
    unfold Browser.Back
    rw [if_pos h1, Pop_eq, if_pos h1, hs]
  · intro h1
    unfold Browser.Back
    rw [if_neg h1]

/-- C8 witness: a two-entry history pops to its newest entry, `Back` on a
two-entry history succeeds, and `Back` on an empty history fails without
changing the browser. -/
theorem C8_witness :
    MemoryHistory.Pop [stA, stB] = ([stA], some stB)
    ∧ Browser.Back bDemo2 = ({ bDemo2 with history := [stA], current := stB }, true)
    ∧ Browser.Back bDemo = (bDemo, false) := by
  have h2 := C8_pop_back [stA, stB] bDemo2
  have h0 := C8_pop_back [stA, stB] bDemo
  refine ⟨?_, ?_, h0.2.2 (by decide)⟩
  · rw [h2.1]; rfl
  · obtain ⟨s, hs, hb⟩ := h2.2.1 (by decide)
    have hsv : s = stB := by
      have : ([stA, stB] : List GoSt).getLast? = some stB := rfl
      rw [show bDemo2.history = [stA, stB] from rfl, this] at hs
      exact (Option.some_inj.mp hs).symm
    rw [hb, hsv]
    decide

/-! ## C9: async fetch store -/

/-- C9: `Set` overwrites unconditionally, so after two `Set`s on the same
name `Get` returns the second document; `Get` of a never-set name returns
the zero-value sentinel (nil document, zero time) rather than an error. -/
theorem C9_async_store (doms : AsyncStore.Doms) (x : String) (t1 t2 : Nat)
    (d1 d2 : Doc) (n : String) :
    AsyncStore.Get (AsyncStore.Set (AsyncStore.Set doms x t1 d1) x t2 d2) x = ⟨t2, some d2⟩
    ∧ (AsyncStore.Get (AsyncStore.Set (AsyncStore.Set doms x t1 d1) x t2 d2) x).D = some d2
    ∧ AsyncStore.Get AsyncStore.New n = ⟨0, none⟩ := by
  refine ⟨?_, ?_, rfl⟩ <;> simp [AsyncStore.Get, AsyncStore.Set]

/-! ## C10: StatusCode without a response -/

/-- C10: when the current state carries no HTTP response, `StatusCode` is
total and returns 503. -/
theorem C10_status_code (b : BrowserSt) (h : b.current.response = none) :
    Browser.StatusCode b = 503 := by
  simp [Browser.StatusCode, h]

/-- C10 witness: a browser state left by a failed round trip has no
response and reports status 503. -/
theorem C10_witness :
    bDemoNoResp.current.response = none ∧ Browser.StatusCode bDemoNoResp = 503 :=
  ⟨rfl, C10_status_code bDemoNoResp rfl⟩

/-! ## C6: redirect policy -/

/-- C6: with redirects disabled the first redirect attempt is refused; with
redirects enabled a chain of 10 or more prior hops is rejected as too many
redirects; otherwise, on every hop after the first, a header present on the
original request but absent on the new hop's request is copied onto it and a
header already present is never overwritten. -/
theorem C6_redirect_policy (follow : Bool) (reqH : Headers) (via : List Headers) :
    (follow = false → shouldRedirect follow reqH via = .redirectsDisabled)
    ∧ (follow = true → 10 ≤ via.length →
        shouldRedirect follow reqH via = .tooManyRedirects)
    ∧ (∀ v0 rest, follow = true → via = v0 :: rest → via.length < 10 →
        shouldRedirect follow reqH via = .proceed (inheritHeaders reqH v0)
        ∧ ∀ k, hget (inheritHeaders reqH v0) k
            = if (hget reqH k).isSome then hget reqH k else hget v0 k) := by
  refine ⟨?_, ?_, ?_⟩
  · intro hf
    subst hf
    rfl
  · intro hf h10
    subst hf
    simp [shouldRedirect, h10]
  · rintro v0 rest hf rfl h10
    subst hf
    refine ⟨?_, fun k => hget_inherit v0 reqH k⟩
    simp only [List.length_cons] at h10
    simp [shouldRedirect]
    omega

/-- C6 witness: disabled redirects refuse the first hop; an 10-hop `via`
chain is rejected; a second hop inherits the first request's header "B"
while keeping its own value for "A". -/
theorem C6_witness :
    shouldRedirect false [] [[("A", ["x"])]] = .redirectsDisabled
    ∧ shouldRedirect true [] (List.replicate 10 []) = .tooManyRedirects
    ∧ shouldRedirect true [("A", ["1"])] [[("A", ["2"]), ("B", ["3"])]]
        = .proceed (inheritHeaders [("A", ["1"])] [("A", ["2"]), ("B", ["3"])])
    ∧ hget (inheritHeaders [("A", ["1"])] [("A", ["2"]), ("B", ["3"])]) "A" = some ["1"]
    ∧ hget (inheritHeaders [("A", ["1"])] [("A", ["2"]), ("B", ["3"])]) "B" = some ["3"] := by
  have h := C6_redirect_policy true [("A", ["1"])] [[("A", ["2"]), ("B", ["3"])]]
  have h2 := h.2.2 [("A", ["2"]), ("B", ["3"])] [] rfl rfl (by decide)
  refine ⟨(C6_redirect_policy false [] [[("A", ["x"])]]).1 rfl,
    (C6_redirect_policy true [] (List.replicate 10 [])).2.1 rfl (by decide),
    h2.1, ?_, ?_⟩
  · rw [h2.2 "A"]
    rfl
  · rw [h2.2 "B"]
    rfl

/-! ## C5: challenge retry budget -/

/-- C5: a 503 response whose Server header names the known proxy enters the
challenge branch, and once the reload counter has reached the configured
maximum (or the default of 3 when the maximum is unset) the call returns the
maximum-retries error instead of attempting another solve; with the maximum
unset, three consecutive challenge responses are still solved and the fourth
trips the budget. -/
theorem C5_retry_budget (m c : Int) (s : SolveCFResult)
    (h : (0 < m ∧ m ≤ c) ∨ (m = 0 ∧ 3 ≤ c)) :
    challengeCounterStep m c s = (0, .maxRetriesError)
    ∧ isCFChallenge 503 "cloudflare" = true
    ∧ isCFChallenge 503 "cloudflare-nginx" = true
    ∧ consecutiveChallengeOutcomes 0 3 0 = [false, false, false]
    ∧ consecutiveChallengeOutcomes 0 4 0 = [false, false, false, true] := by
  have hg : cfRetryGate m c = true := by
    simp only [cfRetryGate, Bool.or_eq_true, Bool.and_eq_true, decide_eq_true_eq]
    omega
  exact ⟨by simp [challengeCounterStep, hg], by decide, by decide, by decide, by decide⟩

/-- C5 witness: with the maximum unset and the counter at 3, the challenge
branch returns the maximum-retries error, and the fourth consecutive
challenge response is the one that errors. -/
theorem C5_witness :
    challengeCounterStep 0 3 .extractionFailed = (0, .maxRetriesError)
    ∧ consecutiveChallengeOutcomes 0 4 0 = [false, false, false, true] := by
  have h := C5_retry_budget 0 3 .extractionFailed (Or.inr (by decide))
  exact ⟨h.1, h.2.2.2.2⟩

/-! ## C4: reload counter dynamics (corrected) -/

/-- C4 counterexample: with the maximum unset and the counter at 3, the
budget-exhausted challenge outcome resets the counter to 0 (via
`httpRequestComplete`), contradicting the claim that no challenge-path
outcome resets it. -/
theorem C4_counterexample :
    challengeCounterStep 0 3 .deadloopGuard = (0, .maxRetriesError)
    ∧ ((3 : Int) ≠ 0) := by
  decide

/-- C4 amended: every challenge-solving attempt that passes the dead-loop
guard increments the counter, but every request completion — including the
budget-exhausted and unsolved challenge outcomes — resets the counter to 0;
only a successful solve returns without completing, leaving the counter
wherever the inner navigation put it. -/
theorem C4_amended (m c cAfter : Int) :
    (cfRetryGate m c = true →
      ∀ s, challengeCounterStep m c s = (0, .maxRetriesError))
    ∧ (cfRetryGate m c = false →
        challengeCounterStep m c .deadloopGuard = (0, .unsolvedError)
        ∧ challengeCounterStep m c .extractionFailed = (0, .unsolvedError)
        ∧ challengeCounterStep m c .postSolve403 = (0, .unsolvedError)
        ∧ challengeCounterStep m c (.navigated cAfter) = (cAfter, .solvedNil))
    ∧ solveCFEntry c false = some (c + 1)
    ∧ solveCFEntry c true = none
    ∧ (∀ (metaOf : Doc → Option String) (parseDur : String → Option Int)
        (b : BrowserSt) (req : Req) (resp : Option HResp) (err : Option String)
        (b' : BrowserSt) (e' : Option String),
        httpRequestComplete metaOf parseDur b req resp err = .done b' e' →
        b'.reloadCounter = 0) := by
  refine ⟨?_, ?_, rfl, rfl, ?_⟩
  · intro hg s
    simp [challengeCounterStep, hg]
  · intro hg
    refine ⟨?_, ?_, ?_, ?_⟩ <;> simp [challengeCounterStep, hg]
  · intro metaOf parseDur b req resp err b' e' hdone
    simp only [httpRequestComplete] at hdone
    split at hdone
    · simp at hdone
    · cases hdone
      rfl

/-- C4 witness: under budget, the unsolved outcome completes with counter 0,
and a solve attempt increments the counter from 5 to 6. -/
theorem C4_witness :
    challengeCounterStep 0 0 .extractionFailed = (0, .unsolvedError)
    ∧ solveCFEntry 5 false = some 6 := by
  refine ⟨((C4_amended 0 0 0).2.1 (by decide)).2.1, ?_⟩
  have h := (C4_amended 0 5 0).2.2.1
  simpa using h

/-! ## C3: legacy challenge answer (corrected) -/

/-- C3 counterexample: on the repository's own legacy fixture values the
submitted `jschl_answer` is the evaluator's string rendering
"168.5181599891", not the integer result plus the hostname length
(168 + 12 = 180 for host "torrentz2.eu"). -/
theorem C3_counterexample :
    (solveCFLegacySubmit "https" "torrentz2.eu" "torrentz2.eu"
        ⟨"168.5181599891", 168⟩ "vc0" "pass0").params.lookup "jschl_answer"
      = some "168.5181599891"
    ∧ toString ((168 : Int) + ("torrentz2.eu".length : Int)) = "180"
    ∧ ("168.5181599891" : String) ≠ "180" := by
  decide

/-- C3 amended: the legacy solver submits, via GET to the well-known path
/cdn-cgi/l/chk_jschl, the `jschl_vc` and `pass` tokens read from the hidden
form inputs together with `jschl_answer` set to the evaluator result's own
string rendering; the integer-plus-hostname-length checksum is computed but
never submitted. -/
theorem C3_amended (scheme rhost host : String) (dataV : OttoValue)
    (vc pw : String) :
    (solveCFLegacySubmit scheme rhost host dataV vc pw).method = "GET"
    ∧ (solveCFLegacySubmit scheme rhost host dataV vc pw).path = "/cdn-cgi/l/chk_jschl"
    ∧ (solveCFLegacySubmit scheme rhost host dataV vc pw).params
        = [("jschl_vc", vc), ("pass", pw), ("jschl_answer", dataV.str)] :=
  ⟨rfl, rfl, rfl⟩

/-! ## C2: transport failure handling (corrected) -/

/-- C2 counterexample: a timed-out round trip completes with a nil error —
the original transport error is not returned to the caller — and an error
whose text ends in "Service Unavailable" installs a synthetic 503 response
rather than no response. -/
theorem C2_counterexample :
    completeErrOf (httpRequestOnError metaOfNone parseDurNone bDemo reqDemo
        (.timeoutErr "dial tcp: i/o timeout")) = some none
    ∧ some (none : Option String) ≠ some (some "dial tcp: i/o timeout")
    ∧ completeRespOf (httpRequestOnError metaOfNone parseDurNone bDemo reqDemo
        (.otherErr "503 Service Unavailable")) = some (some synthetic503)
    ∧ some (some synthetic503) ≠ some (none : Option HResp) := by
  decide

/-- C2 amended: a failed round trip synthesizes the empty placeholder
document, pushes the previous current state, installs a new state carrying
the request (with a synthetic 503 response when the error text ends in
"Service Unavailable", and no response otherwise), runs post-processing and
resets the counter; non-timeout failures return the original transport
error, while a timeout completes with a nil error and no response. -/
theorem C2_amended (metaOf : Doc → Option String) (parseDur : String → Option Int)
    (b : BrowserSt) (req : Req) (e : String)
    (hm : metaOf (parseDoc "<html></html>") = none) :
    httpRequestOnError metaOf parseDur b req (.otherErr e)
      = some (.done
          { b with
            history := MemoryHistory.Push b.histCap b.history b.current
            current := ⟨some req,
              if goHasSuffix e "Service Unavailable" then some synthetic503 else none,
              parseDoc "<html></html>"⟩
            body := "<html></html>"
            reloadCounter := 0 } (some e))
    ∧ httpRequestOnError metaOf parseDur b req (.timeoutErr e)
      = some (.done
          { b with
            history := MemoryHistory.Push b.histCap b.history b.current
            current := ⟨some req, none, parseDoc "<html></html>"⟩
            body := "<html></html>"
            reloadCounter := 0 } none) := by
  constructor <;>
    simp only [httpRequestOnError, httpRequestComplete, postSendCheck, hm, ite_self]

/-- C2 witness: a refused connection completes into a placeholder state with
no response and returns the original error text. -/
theorem C2_witness :
    metaOfNone (parseDoc "<html></html>") = none
    ∧ httpRequestOnError metaOfNone parseDurNone bDemo reqDemo
        (.otherErr "dial tcp: connection refused")
      = some (.done
          { bDemo with
            history := MemoryHistory.Push bDemo.histCap bDemo.history bDemo.current
            current := ⟨some reqDemo,
              if goHasSuffix "dial tcp: connection refused" "Service Unavailable" then
                some synthetic503
              else none,
              parseDoc "<html></html>"⟩
            body := "<html></html>"
            reloadCounter := 0 } (some "dial tcp: connection refused")) :=
  ⟨rfl, (C2_amended metaOfNone parseDurNone bDemo reqDemo
    "dial tcp: connection refused" rfl).1⟩

/-! ## C1: decode pipeline bytes (code bug) -/

/-- C1 evaluated at a failing input: with Content-Encoding gzip and a
charset-exempt Content-Type (and likewise a failed charset-reader
initialisation), `httpRequest` stores the raw compressed stream rather than
the decompressed bytes the spec requires, although the gzip reader was
constructed and would have produced different bytes. -/
theorem C1_failing_input_eval :
    httpRequestBody demoCodecs ["application/json"] 200 "gzip" "application/json"
        "RAW GZIP STREAM" true
      = some "RAW GZIP STREAM"
    ∧ demoCodecs.gunzip "RAW GZIP STREAM" = some "UNZIPPED BODY"
    ∧ ("RAW GZIP STREAM" : String) ≠ "UNZIPPED BODY"
    ∧ contentFix ["application/json"] "application/json" = true
    ∧ httpRequestBody demoCodecs [] 200 "gzip" "text/plain" "RAW GZIP STREAM" true
      = some "RAW GZIP STREAM"
    ∧ demoCodecs.charsetReader "text/plain" "UNZIPPED BODY" = none := by
  decide

end Surf
